import Mathlib

/-!
Verification development for the `gary` repository.

Part 1 embeds `src/gary/coordinates/propermotion.py` (`pm_gal_to_icrs`,
`pm_icrs_to_gal`) over exact real arithmetic: astropy quantities become
value/unit pairs, `Quantity.to` fails exactly when the physical dimensions
differ, and `np.linalg.inv` fails exactly on a singular matrix.

Part 2 models the orbit-analysis functions (`angular_momentum`,
`classify_orbit`, `align_circulation_with_z`, `peak_to_peak_period`) that the
repository's test suite `src/gary/dynamics/tests/test_core.py` exercises; their
implementations are not part of the excerpt, so they are modelled from the
specification's own algorithm descriptions.
-/

noncomputable section

namespace Gary

/-- A physical unit: a dimension tag (two units are inter-convertible exactly
when their dimensions agree) and a positive scale factor to a base unit. -/
structure PMUnit where
  dim : ℕ
  scale : ℝ
  scale_pos : 0 < scale

/-- An astropy-style quantity: a numeric value carrying a unit. -/
structure Quantity where
  value : ℝ
  unit : PMUnit

/-- Unit conversion `Quantity.to`: succeeds exactly when the dimensions agree,
rescaling the value; `none` models astropy's `UnitConversionError`. -/
def Quantity.to (q : Quantity) (u : PMUnit) : Option Quantity :=
  if q.unit.dim = u.dim then some ⟨q.value * q.unit.scale / u.scale, u⟩ else none

/-- A sky position as the astropy coordinate collaborator delivers it: the
ICRS representation (`i.ra`, `i.dec`) and the Galactic representation
(`g.l`, `g.b`), all in radians. -/
structure SkyCoordinate where
  ra : ℝ
  dec : ℝ
  l : ℝ
  b : ℝ

/-- Right ascension of the North Galactic Pole, J2000
(`coord.Galactic._ngp_J2000.ra`), in radians. -/
def ag : ℝ := 192.85948 * Real.pi / 180

/-- Declination of the North Galactic Pole, J2000
(`coord.Galactic._ngp_J2000.dec`), in radians. -/
def dg : ℝ := 27.12825 * Real.pi / 180

/-- Matrix element `C1 = sin(dg)*cos(dec) - cos(dg)*sin(dec)*cos(ra - ag)`
from `propermotion.py`. -/
def C1 (c : SkyCoordinate) : ℝ :=
  Real.sin dg * Real.cos c.dec - Real.cos dg * Real.sin c.dec * Real.cos (c.ra - ag)

/-- Matrix element `C2 = cos(dg)*sin(ra - ag)` from `propermotion.py`. -/
def C2 (c : SkyCoordinate) : ℝ := Real.cos dg * Real.sin (c.ra - ag)

/-- The quantity `cosb = sqrt(C1**2 + C2**2)` computed in `propermotion.py`
(the cosine of the Galactic latitude of the position). -/
def cosb (c : SkyCoordinate) : ℝ := Real.sqrt (C1 c ^ 2 + C2 c ^ 2)

/-- A 2 by 2 real matrix, row-major. -/
structure Mat2 where
  m11 : ℝ
  m12 : ℝ
  m21 : ℝ
  m22 : ℝ

/-- Matrix-vector product (`R.dot(mu)` in the source). -/
def Mat2.mulVec (m : Mat2) (v : ℝ × ℝ) : ℝ × ℝ :=
  (m.m11 * v.1 + m.m12 * v.2, m.m21 * v.1 + m.m22 * v.2)

/-- Determinant of a 2 by 2 matrix. -/
def Mat2.det (m : Mat2) : ℝ := m.m11 * m.m22 - m.m12 * m.m21

/-- The adjugate-over-determinant inverse of a 2 by 2 matrix. -/
def Mat2.invmat (m : Mat2) : Mat2 :=
  ⟨m.m22 / m.det, -m.m12 / m.det, -m.m21 / m.det, m.m11 / m.det⟩

/-- `np.linalg.inv` on a 2 by 2 matrix: raises `LinAlgError` (`none`) exactly
on a singular matrix, otherwise returns the exact inverse. -/
def Mat2.inv2 (m : Mat2) : Option Mat2 :=
  if m.det = 0 then none else some m.invmat

/-- The rotation matrix `R = np.array([[C1, C2], [-C1, C2]]) / cosb` built by
both conversion routines in `propermotion.py`. -/
def Rmat (c : SkyCoordinate) : Mat2 :=
  ⟨C1 c / cosb c, C2 c / cosb c, -C1 c / cosb c, C2 c / cosb c⟩

/-- Failure modes of the proper-motion conversions: astropy's unit-conversion
failure, and numpy's singular-matrix failure. -/
inductive PMError where
  | unitMismatch : PMError
  | singularMatrix : PMError

/-- Predicate on an `Except`: did the call return a value (no exception)? -/
def exceptOk {ε α : Type} (e : Except ε α) : Bool :=
  match e with
  | .ok _ => true
  | .error _ => false

/-- Embedding of `pm_gal_to_icrs(coordinate, mu, cosb=False)` from
`src/gary/coordinates/propermotion.py`: scale the longitude component by
`cos(g.b)` unless the flag says it is pre-scaled, build `R`, convert the
latitude component to the longitude component's unit, and apply
`np.linalg.inv(R)`. -/
def pm_gal_to_icrs (coordinate : SkyCoordinate) (mu : Quantity × Quantity)
    (cosbFlag : Bool) : Except PMError (Quantity × Quantity) :=
  let mul := mu.1
  let mub := mu.2
  let mulcosb : Quantity :=
    if cosbFlag = false then ⟨mul.value * Real.cos coordinate.b, mul.unit⟩ else mul
  let R := Rmat coordinate
  match mub.to mulcosb.unit with
  | none => .error .unitMismatch
  | some mub2 =>
    match R.inv2 with
    | none => .error .singularMatrix
    | some Rinv =>
      let v := Rinv.mulVec (mulcosb.value, mub2.value)
      .ok (⟨v.1, mulcosb.unit⟩, ⟨v.2, mulcosb.unit⟩)

/-- Embedding of `pm_icrs_to_gal(coordinate, mu, cosdec)` from
`src/gary/coordinates/propermotion.py`: scale the RA component by
`cos(i.dec)` unless the flag says it is pre-scaled, build `R`, convert the
declination component to the RA component's unit, and apply `R`. -/
def pm_icrs_to_gal (coordinate : SkyCoordinate) (mu : Quantity × Quantity)
    (cosdec : Bool) : Except PMError (Quantity × Quantity) :=
  let mua := mu.1
  let mud := mu.2
  let muacosd : Quantity :=
    if cosdec = false then ⟨mua.value * Real.cos coordinate.dec, mua.unit⟩ else mua
  let R := Rmat coordinate
  match mud.to muacosd.unit with
  | none => .error .unitMismatch
  | some mud2 =>
    let v := R.mulVec (muacosd.value, mud2.value)
    .ok (⟨v.1, muacosd.unit⟩, ⟨v.2, muacosd.unit⟩)

/-- The rotation matrix exactly as the specification words it,
`R = (1/cosb) * [[C1, C2], [-C1, C2]]` (refinement comparator for the
code-side `Rmat`). -/
def R_spec (c : SkyCoordinate) : Mat2 :=
  ⟨(1 / cosb c) * C1 c, (1 / cosb c) * C2 c,
   (1 / cosb c) * (-C1 c), (1 / cosb c) * C2 c⟩

/-- A 3-vector of Cartesian components (position, velocity or angular
momentum of one time sample). -/
structure Vec3 where
  x : ℝ
  y : ℝ
  z : ℝ

/-- Modelled from the spec: the cross product used by `angularMomentum`
(the implementation `CartesianPhaseSpacePosition.angular_momentum` is not
under `src/`, only its tests are). -/
def cross (q p : Vec3) : Vec3 :=
  ⟨q.y * p.z - q.z * p.y, q.z * p.x - q.x * p.z, q.x * p.y - q.y * p.x⟩

/-- Modelled from the spec: `angularMomentum` is the elementwise cross
product of position and velocity at each time sample, shape-preserving
over the time axis. A trajectory is the list of (position, velocity)
samples. -/
def angular_momentum (w : List (Vec3 × Vec3)) : List Vec3 :=
  w.map fun s => cross s.1 s.2

/-- Modelled from the spec: `angularMomentum` on a batch of orbit instances
(the trailing batch axis of a 3xTxN array) acts per instance. -/
def angular_momentum_batch (ws : List (List (Vec3 × Vec3))) : List (List Vec3) :=
  ws.map angular_momentum

/-- Modelled from the spec: the strict sign-consistency test of
`classifyOrbit` — does a momentum component keep a single nonzero sign for
the entire duration? -/
def single_sign (xs : List ℝ) : Bool :=
  (xs.all fun a => decide (0 < a)) || (xs.all fun a => decide (a < 0))

/-- Modelled from the spec: `classifyOrbit` (not under `src/`, only its
tests are). Computes angular momentum, tests each Cartesian axis for
persistent single-sign circulation, flags the axis when exactly one axis
circulates, and reports all zeros otherwise (the documented fallback for
the ambiguous multi-axis case is all zeros). -/
def classify_orbit (w : List (Vec3 × Vec3)) : ℕ × ℕ × ℕ :=
  let L := angular_momentum w
  let sx := single_sign (L.map Vec3.x)
  let sy := single_sign (L.map Vec3.y)
  let sz := single_sign (L.map Vec3.z)
  if sx && !sy && !sz then (1, 0, 0)
  else if sy && !sx && !sz then (0, 1, 0)
  else if sz && !sx && !sy then (0, 0, 1)
  else (0, 0, 0)

/-- Modelled from the spec: `classifyOrbit` over a trailing batch axis
returns one flag triple per orbit instance. -/
def classify_orbit_batch (ws : List (List (Vec3 × Vec3))) : List (ℕ × ℕ × ℕ) :=
  ws.map classify_orbit

/-- Sum of the three circulation flags. -/
def flagSum (f : ℕ × ℕ × ℕ) : ℕ := f.1 + f.2.1 + f.2.2

/-- Modelled from the spec: the axis relabeling used by
`alignCirculationWithZ` — the cyclic permutation sending the circulating
axis to the third (z) slot, and the identity for a z-loop or a box
classification. -/
def permute_axes (circ : ℕ × ℕ × ℕ) (v : Vec3) : Vec3 :=
  if circ = (1, 0, 0) then ⟨v.y, v.z, v.x⟩
  else if circ = (0, 1, 0) then ⟨v.z, v.x, v.y⟩
  else v

/-- Modelled from the spec: `alignCirculationWithZ` (not under `src/`, only
its tests are). Applies the passive axis permutation determined by the
classification to position and velocity of every sample. -/
def align_circulation_with_z (w : List (Vec3 × Vec3)) (circ : ℕ × ℕ × ℕ) :
    List (Vec3 × Vec3) :=
  w.map fun s => (permute_axes circ s.1, permute_axes circ s.2)

/-- Modelled from the spec: `alignCirculationWithZ` over a trailing batch
axis permutes each orbit instance independently by its own classification. -/
def align_circulation_with_z_batch (ws : List (List (Vec3 × Vec3)))
    (circs : List (ℕ × ℕ × ℕ)) : List (List (Vec3 × Vec3)) :=
  List.zipWith align_circulation_with_z ws circs

/-- Modelled from the spec: the strict interior local maxima of a sampled
signal given as (time, value) pairs, used by `peakToPeakPeriod`. -/
def peak_times : List (ℝ × ℝ) → List ℝ
  | a :: b :: c :: rest =>
    if a.2 < b.2 ∧ c.2 < b.2 then b.1 :: peak_times (b :: c :: rest)
    else peak_times (b :: c :: rest)
  | _ => []

/-- Successive differences of a list. -/
def diffs : List ℝ → List ℝ
  | a :: b :: rest => (b - a) :: diffs (b :: rest)
  | _ => []

/-- Median of a list of reals (0 on the empty list). -/
def medianR (xs : List ℝ) : ℝ :=
  (xs.mergeSort fun a b => decide (a ≤ b)).getD (xs.length / 2) 0

/-- Modelled from the spec: `peakToPeakPeriod` (not under `src/`, only its
tests are) — locate consecutive local maxima of the sampled signal, take
the elapsed times between successive maxima, and aggregate with the
median. -/
def peak_to_peak_period (times signal : List ℝ) : ℝ :=
  medianR (diffs (peak_times (times.zip signal)))

/-- Concrete angular-rate unit used as a common unit in witnesses. -/
def u0 : PMUnit := ⟨0, 1, one_pos⟩

/-- A unit of a different physical dimension, not convertible to `u0`. -/
def u1 : PMUnit := ⟨1, 1, one_pos⟩

/-- A position with the right ascension of the NGP and declination zero:
there `C2 = 0` while `cosb > 0`, so `R` is singular away from the poles. -/
def cSing : SkyCoordinate := ⟨ag, 0, 0, 0⟩

/-- A position a quarter turn east of the NGP on the equator: there
`C1 = sin dg` and `C2 = cos dg` are both nonzero and `cosb = 1`. -/
def cW : SkyCoordinate := ⟨ag + Real.pi / 2, 0, 0, 0⟩

/-- The North Galactic Pole itself (Galactic latitude 90 degrees), where
`cosb = 0`. -/
def ngp : SkyCoordinate := ⟨ag, dg, 0, Real.pi / 2⟩

theorem Quantity.to_self (v : ℝ) (u : PMUnit) :
    Quantity.to ⟨v, u⟩ u = some ⟨v, u⟩ := by
  simp [Quantity.to, mul_div_assoc, div_self (ne_of_gt u.scale_pos)]

theorem Mat2.inv2_of_ne (m : Mat2) (h : m.det ≠ 0) : m.inv2 = some m.invmat := by
  simp [Mat2.inv2, h]

theorem Mat2.invmat_mulVec_cancel (m : Mat2) (h : m.det ≠ 0) (v : ℝ × ℝ) :
    m.invmat.mulVec (m.mulVec v) = v := by
  obtain ⟨a, b⟩ := v
  have hD : m.m11 * m.m22 - m.m12 * m.m21 ≠ 0 := h
  simp only [Mat2.invmat, Mat2.mulVec, Mat2.det, Prod.mk.injEq]
  constructor <;> field_simp <;> ring

theorem Mat2.mulVec_invmat_cancel (m : Mat2) (h : m.det ≠ 0) (v : ℝ × ℝ) :
    m.mulVec (m.invmat.mulVec v) = v := by
  obtain ⟨a, b⟩ := v
  have hD : m.m11 * m.m22 - m.m12 * m.m21 ≠ 0 := h
  simp only [Mat2.invmat, Mat2.mulVec, Mat2.det, Prod.mk.injEq]
  constructor <;> field_simp <;> ring

theorem cosb_pos_of_C1_ne (c : SkyCoordinate) (h : C1 c ≠ 0) : 0 < cosb c := by
  apply Real.sqrt_pos.mpr
  have h1 : 0 < C1 c ^ 2 := lt_of_le_of_ne (sq_nonneg _) (Ne.symm (pow_ne_zero 2 h))
  have h2 : 0 ≤ C2 c ^ 2 := sq_nonneg _
  linarith

theorem Rmat_det (c : SkyCoordinate) :
    (Rmat c).det = 2 * C1 c * C2 c / cosb c ^ 2 := by
  simp only [Rmat, Mat2.det]
  ring

theorem Rmat_det_ne_zero (c : SkyCoordinate) (h1 : C1 c ≠ 0) (h2 : C2 c ≠ 0) :
    (Rmat c).det ≠ 0 := by
  rw [Rmat_det]
  have hcb : cosb c ≠ 0 := (cosb_pos_of_C1_ne c h1).ne'
  exact div_ne_zero (mul_ne_zero (mul_ne_zero two_ne_zero h1) h2) (pow_ne_zero 2 hcb)

theorem dg_pos : 0 < dg := by
  unfold dg
  have := Real.pi_pos
  linarith

theorem dg_lt_half_pi : dg < Real.pi / 2 := by
  unfold dg
  have := Real.pi_pos
  linarith

theorem sin_dg_pos : 0 < Real.sin dg := by
  apply Real.sin_pos_of_pos_of_lt_pi dg_pos
  have := Real.pi_pos
  have := dg_lt_half_pi
  linarith

theorem cos_dg_pos : 0 < Real.cos dg := by
  apply Real.cos_pos_of_mem_Ioo
  constructor
  · have := Real.pi_pos
    have := dg_pos
    linarith
  · exact dg_lt_half_pi

theorem C1_cSing : C1 cSing = Real.sin dg := by
  simp [C1, cSing]

theorem C2_cSing : C2 cSing = 0 := by
  simp [C2, cSing]

theorem cosb_cSing : cosb cSing = Real.sin dg := by
  rw [cosb, C1_cSing, C2_cSing]
  simp [Real.sqrt_sq sin_dg_pos.le]

theorem C1_cW : C1 cW = Real.sin dg := by
  simp [C1, cW]

theorem C2_cW : C2 cW = Real.cos dg := by
  simp [C2, cW]

theorem cosb_cW : cosb cW = 1 := by
  rw [cosb, C1_cW, C2_cW, Real.sin_sq_add_cos_sq, Real.sqrt_one]

theorem Rmat_det_cW : (Rmat cW).det ≠ 0 := by
  apply Rmat_det_ne_zero
  · rw [C1_cW]; exact sin_dg_pos.ne'
  · rw [C2_cW]; exact cos_dg_pos.ne'

theorem C1_ngp : C1 ngp = 0 := by
  simp [C1, ngp]
  ring

theorem C2_ngp : C2 ngp = 0 := by
  simp [C2, ngp]

theorem cosb_ngp : cosb ngp = 0 := by
  rw [cosb, C1_ngp, C2_ngp]
  simp

theorem Quantity.to_of_dim_ne (q : Quantity) (u : PMUnit) (h : q.unit.dim ≠ u.dim) :
    Quantity.to q u = none := by
  simp [Quantity.to, h]

theorem R_spec_eq (c : SkyCoordinate) : R_spec c = Rmat c := by
  simp only [R_spec, Rmat, Mat2.mk.injEq]
  refine ⟨by ring, by ring, by ring, by ring⟩

theorem pm_icrs_to_gal_eval (c : SkyCoordinate) (u : PMUnit) (v1 v2 : ℝ) (f : Bool) :
    pm_icrs_to_gal c (⟨v1, u⟩, ⟨v2, u⟩) f =
      .ok (⟨((Rmat c).mulVec (if f = false then v1 * Real.cos c.dec else v1, v2)).1, u⟩,
           ⟨((Rmat c).mulVec (if f = false then v1 * Real.cos c.dec else v1, v2)).2, u⟩) := by
  cases f <;> simp [pm_icrs_to_gal, Quantity.to_self]

theorem pm_gal_to_icrs_eval (c : SkyCoordinate) (u : PMUnit) (v1 v2 : ℝ) (f : Bool)
    (hdet : (Rmat c).det ≠ 0) :
    pm_gal_to_icrs c (⟨v1, u⟩, ⟨v2, u⟩) f =
      .ok (⟨((Rmat c).invmat.mulVec (if f = false then v1 * Real.cos c.b else v1, v2)).1, u⟩,
           ⟨((Rmat c).invmat.mulVec (if f = false then v1 * Real.cos c.b else v1, v2)).2, u⟩) := by
  cases f <;> simp [pm_gal_to_icrs, Quantity.to_self, Mat2.inv2_of_ne _ hdet]

theorem Rmat_det_cSing : (Rmat cSing).det = 0 := by
  rw [Rmat_det, C2_cSing]
  ring

/-- Claim C1, counterexample to the claim as stated: the position with the
right ascension of the NGP and declination zero is not at a Galactic pole
(`cosb` is positive there), yet `pm_gal_to_icrs` does not return the inverse
of `R` applied to the scaled input — it raises numpy's singular-matrix error,
because `C2 = 0` makes `R` singular. -/
theorem claim_C1_counterexample :
    cosb cSing ≠ 0 ∧
    pm_gal_to_icrs cSing (⟨1, u0⟩, ⟨1, u0⟩) true = .error .singularMatrix := by
  constructor
  · rw [cosb_cSing]; exact sin_dg_pos.ne'
  · simp [pm_gal_to_icrs, Quantity.to_self, Mat2.inv2, Rmat_det_cSing]

/-- Claim C1 (amended): at every sky position where both `C1` and `C2` are
nonzero (hence `R` is invertible; such positions are in particular not at a
Galactic pole), `pm_icrs_to_gal` returns `R = (1/cosb)*[[C1,C2],[-C1,C2]]`
applied to the cos-scaled input vector (the RA component is scaled by
`cos(dec)` first when the `cosdec` flag is false), and `pm_gal_to_icrs`
returns the inverse of `R` applied to the cos-scaled input vector (the
longitude component is scaled by `cos(b)` first when the `cosb` flag is
false). -/
theorem claim_C1 (c : SkyCoordinate) (u : PMUnit) (v1 v2 : ℝ) (f : Bool)
    (h1 : C1 c ≠ 0) (h2 : C2 c ≠ 0) :
    (pm_icrs_to_gal c (⟨v1, u⟩, ⟨v2, u⟩) f =
      .ok (⟨((R_spec c).mulVec (if f = false then v1 * Real.cos c.dec else v1, v2)).1, u⟩,
           ⟨((R_spec c).mulVec (if f = false then v1 * Real.cos c.dec else v1, v2)).2, u⟩)) ∧
    (∃ w1 w2 : ℝ,
      pm_gal_to_icrs c (⟨v1, u⟩, ⟨v2, u⟩) f = .ok (⟨w1, u⟩, ⟨w2, u⟩) ∧
      (R_spec c).mulVec (w1, w2) =
        (if f = false then v1 * Real.cos c.b else v1, v2)) := by
  have hdet : (Rmat c).det ≠ 0 := Rmat_det_ne_zero c h1 h2
  constructor
  · rw [R_spec_eq]
    exact pm_icrs_to_gal_eval c u v1 v2 f
  · refine ⟨((Rmat c).invmat.mulVec (if f = false then v1 * Real.cos c.b else v1, v2)).1,
            ((Rmat c).invmat.mulVec (if f = false then v1 * Real.cos c.b else v1, v2)).2,
            pm_gal_to_icrs_eval c u v1 v2 f hdet, ?_⟩
    rw [R_spec_eq, Prod.mk.eta]
    exact Mat2.mulVec_invmat_cancel (Rmat c) hdet _

/-- Witness for the amended claim C1 at a concrete non-degenerate position. -/
theorem claim_C1_witness :
    C1 cW ≠ 0 ∧ C2 cW ≠ 0 ∧
    ((pm_icrs_to_gal cW (⟨1, u0⟩, ⟨2, u0⟩) true =
      .ok (⟨((R_spec cW).mulVec (1, 2)).1, u0⟩, ⟨((R_spec cW).mulVec (1, 2)).2, u0⟩)) ∧
    (∃ w1 w2 : ℝ,
      pm_gal_to_icrs cW (⟨1, u0⟩, ⟨2, u0⟩) true = .ok (⟨w1, u0⟩, ⟨w2, u0⟩) ∧
      (R_spec cW).mulVec (w1, w2) = (1, 2))) := by
  have h1 : C1 cW ≠ 0 := by rw [C1_cW]; exact sin_dg_pos.ne'
  have h2 : C2 cW ≠ 0 := by rw [C2_cW]; exact cos_dg_pos.ne'
  refine ⟨h1, h2, ?_⟩
  simpa using claim_C1 cW u0 1 2 true h1 h2

/-- Claim C2: at every position away from the degeneracies (both `C1` and
`C2` nonzero, so the rotation is invertible), converting a proper-motion
vector with `pm_icrs_to_gal` and feeding the result to `pm_gal_to_icrs`
with the scaled flag true on the second call — or composing the two calls
in the opposite order — returns the original vector exactly (exact real
arithmetic stands in for floating-point tolerance). -/
theorem claim_C2 (c : SkyCoordinate) (u : PMUnit) (v1 v2 : ℝ)
    (h1 : C1 c ≠ 0) (h2 : C2 c ≠ 0) :
    (Except.bind (pm_icrs_to_gal c (⟨v1, u⟩, ⟨v2, u⟩) true)
      (fun w => pm_gal_to_icrs c w true) = .ok (⟨v1, u⟩, ⟨v2, u⟩)) ∧
    (Except.bind (pm_gal_to_icrs c (⟨v1, u⟩, ⟨v2, u⟩) true)
      (fun w => pm_icrs_to_gal c w true) = .ok (⟨v1, u⟩, ⟨v2, u⟩)) := by
  have hdet : (Rmat c).det ≠ 0 := Rmat_det_ne_zero c h1 h2
  constructor
  · rw [pm_icrs_to_gal_eval c u v1 v2 true]
    simp only [Except.bind]
    rw [pm_gal_to_icrs_eval c u _ _ true hdet]
    simp only [if_neg (by decide : ¬(true = false)), Prod.mk.eta]
    rw [Mat2.invmat_mulVec_cancel (Rmat c) hdet (v1, v2)]
  · rw [pm_gal_to_icrs_eval c u v1 v2 true hdet]
    simp only [Except.bind]
    rw [pm_icrs_to_gal_eval c u _ _ true]
    simp only [if_neg (by decide : ¬(true = false)), Prod.mk.eta]
    rw [Mat2.mulVec_invmat_cancel (Rmat c) hdet (v1, v2)]

/-- Witness for claim C2 at a concrete non-degenerate position. -/
theorem claim_C2_witness :
    C1 cW ≠ 0 ∧ C2 cW ≠ 0 ∧
    Except.bind (pm_icrs_to_gal cW (⟨1, u0⟩, ⟨2, u0⟩) true)
      (fun w => pm_gal_to_icrs cW w true) = .ok (⟨1, u0⟩, ⟨2, u0⟩) := by
  have h1 : C1 cW ≠ 0 := by rw [C1_cW]; exact sin_dg_pos.ne'
  have h2 : C2 cW ≠ 0 := by rw [C2_cW]; exact cos_dg_pos.ne'
  exact ⟨h1, h2, (claim_C2 cW u0 1 2 h1 h2).1⟩

/-- Claim C3, counterexample to the claim as stated: at the North Galactic
Pole (`cosb = 0`) the code raises no degenerate-geometry error —
`pm_icrs_to_gal` returns a value (here the zero vector, since every entry
of `R` follows the division-by-zero convention; the floating-point code
returns NaNs, likewise a value and not an exception). -/
theorem claim_C3_counterexample :
    cosb ngp = 0 ∧
    pm_icrs_to_gal ngp (⟨1, u0⟩, ⟨1, u0⟩) true = .ok (⟨0, u0⟩, ⟨0, u0⟩) := by
  refine ⟨cosb_ngp, ?_⟩
  have hR : Rmat ngp = ⟨0, 0, 0, 0⟩ := by
    simp [Rmat, C1_ngp, C2_ngp, cosb_ngp]
  simp [pm_icrs_to_gal, Quantity.to_self, hR, Mat2.mulVec]

/-- Claim C3 (amended): neither conversion contains a degeneracy check; in
particular, for every input position lying exactly at a Galactic pole
(`cosb = 0`), `pm_icrs_to_gal` still returns a value rather than raising a
degenerate-geometry error (the floating-point code silently produces NaNs
there, and `pm_gal_to_icrs` can only fail through the generic
unit-conversion or matrix-inversion paths). -/
theorem claim_C3 (c : SkyCoordinate) (u : PMUnit) (v1 v2 : ℝ) (f : Bool)
    (hpole : cosb c = 0) :
    C1 c = 0 ∧ C2 c = 0 ∧
    exceptOk (pm_icrs_to_gal c (⟨v1, u⟩, ⟨v2, u⟩) f) = true := by
  have hsum : C1 c ^ 2 + C2 c ^ 2 = 0 := by
    have h0 : 0 ≤ C1 c ^ 2 + C2 c ^ 2 := by positivity
    have h := hpole
    rw [cosb] at h
    exact (Real.sqrt_eq_zero h0).mp h
  have h1 : C1 c = 0 := by
    have hsq : C1 c ^ 2 = 0 := by nlinarith [sq_nonneg (C2 c)]
    exact pow_eq_zero_iff two_ne_zero |>.mp hsq
  have h2 : C2 c = 0 := by
    have hsq : C2 c ^ 2 = 0 := by nlinarith [sq_nonneg (C1 c)]
    exact pow_eq_zero_iff two_ne_zero |>.mp hsq
  refine ⟨h1, h2, ?_⟩
  rw [pm_icrs_to_gal_eval c u v1 v2 f]
  rfl

/-- Witness for the amended claim C3 at the North Galactic Pole. -/
theorem claim_C3_witness :
    cosb ngp = 0 ∧ C1 ngp = 0 ∧ C2 ngp = 0 ∧
    exceptOk (pm_icrs_to_gal ngp (⟨3, u0⟩, ⟨4, u0⟩) false) = true :=
  ⟨cosb_ngp, claim_C3 ngp u0 3 4 false cosb_ngp⟩

/-- Claim C8: both conversions return the bare rotated 2-vector in the
target frame's cos-latitude-scaled convention — `pm_icrs_to_gal` returns
exactly `R` applied to the (already scaled) input and `pm_gal_to_icrs`
exactly the inverse of `R` applied to it, with the longitude/RA component
of the result never divided by the cosine of the target-frame latitude
before returning. -/
theorem claim_C8 (c : SkyCoordinate) (u : PMUnit) (v1 v2 : ℝ)
    (hdet : (Rmat c).det ≠ 0) :
    pm_icrs_to_gal c (⟨v1, u⟩, ⟨v2, u⟩) true =
      .ok (⟨((Rmat c).mulVec (v1, v2)).1, u⟩, ⟨((Rmat c).mulVec (v1, v2)).2, u⟩) ∧
    pm_gal_to_icrs c (⟨v1, u⟩, ⟨v2, u⟩) true =
      .ok (⟨((Rmat c).invmat.mulVec (v1, v2)).1, u⟩,
           ⟨((Rmat c).invmat.mulVec (v1, v2)).2, u⟩) := by
  constructor
  · simpa using pm_icrs_to_gal_eval c u v1 v2 true
  · simpa using pm_gal_to_icrs_eval c u v1 v2 true hdet

/-- Witness for claim C8 at a concrete non-degenerate position. -/
theorem claim_C8_witness :
    (Rmat cW).det ≠ 0 ∧
    pm_icrs_to_gal cW (⟨1, u0⟩, ⟨2, u0⟩) true =
      .ok (⟨((Rmat cW).mulVec (1, 2)).1, u0⟩, ⟨((Rmat cW).mulVec (1, 2)).2, u0⟩) ∧
    pm_gal_to_icrs cW (⟨1, u0⟩, ⟨2, u0⟩) true =
      .ok (⟨((Rmat cW).invmat.mulVec (1, 2)).1, u0⟩,
           ⟨((Rmat cW).invmat.mulVec (1, 2)).2, u0⟩) :=
  ⟨Rmat_det_cW, claim_C8 cW u0 1 2 Rmat_det_cW⟩

/-- Claim C9, counterexample to the claim as stated: the two components
below carry the same (hence convertible) unit, yet `pm_gal_to_icrs` does
not succeed — at a position where `C2 = 0` it raises the singular-matrix
error coming from `np.linalg.inv`. -/
theorem claim_C9_counterexample :
    (⟨(2 : ℝ), u0⟩ : Quantity).unit.dim = (⟨(3 : ℝ), u0⟩ : Quantity).unit.dim ∧
    pm_gal_to_icrs cSing (⟨2, u0⟩, ⟨3, u0⟩) true = .error .singularMatrix := by
  refine ⟨rfl, ?_⟩
  simp [pm_gal_to_icrs, Quantity.to_self, Mat2.inv2, Rmat_det_cSing]

/-- Claim C9 (amended): each conversion fails with the unit-mismatch error
exactly when the two components' units are not inter-convertible (the
latitude component is converted to the longitude component's unit before
the rotation is applied); with convertible units `pm_icrs_to_gal` always
succeeds, and `pm_gal_to_icrs` succeeds provided the rotation matrix at
the position is invertible. -/
theorem claim_C9 (c : SkyCoordinate) (q1 q2 : Quantity) (f : Bool) :
    (pm_icrs_to_gal c (q1, q2) f = .error .unitMismatch ↔ q2.unit.dim ≠ q1.unit.dim) ∧
    (pm_gal_to_icrs c (q1, q2) f = .error .unitMismatch ↔ q2.unit.dim ≠ q1.unit.dim) ∧
    (q2.unit.dim = q1.unit.dim → exceptOk (pm_icrs_to_gal c (q1, q2) f) = true) ∧
    (q2.unit.dim = q1.unit.dim → (Rmat c).det ≠ 0 →
      exceptOk (pm_gal_to_icrs c (q1, q2) f) = true) := by
  obtain ⟨x1, uu1⟩ := q1
  obtain ⟨x2, uu2⟩ := q2
  by_cases hdim : uu2.dim = uu1.dim
  · by_cases hdet : (Rmat c).det = 0
    · cases f <;>
        simp [pm_icrs_to_gal, pm_gal_to_icrs, Quantity.to, hdim, Mat2.inv2, hdet, exceptOk]
    · cases f <;>
        simp [pm_icrs_to_gal, pm_gal_to_icrs, Quantity.to, hdim, Mat2.inv2, hdet, exceptOk]
  · cases f <;>
      simp [pm_icrs_to_gal, pm_gal_to_icrs, Quantity.to, hdim, exceptOk]

/-- Witness for the amended claim C9: a mismatched pair fails with the
unit-mismatch error, and a matched pair at a non-degenerate position
succeeds. -/
theorem claim_C9_witness :
    pm_icrs_to_gal cW (⟨1, u0⟩, ⟨1, u1⟩) true = .error .unitMismatch ∧
    exceptOk (pm_gal_to_icrs cW (⟨1, u0⟩, ⟨2, u0⟩) true) = true := by
  constructor
  · exact (claim_C9 cW ⟨1, u0⟩ ⟨1, u1⟩ true).1.mpr (by simp [u0, u1])
  · exact (claim_C9 cW ⟨1, u0⟩ ⟨2, u0⟩ true).2.2.2 rfl Rmat_det_cW

/-- Claim C10: there are sky positions that are not at a Galactic pole
(`cosb > 0`) at which `R` is nevertheless singular — at the right ascension
of the NGP, `sin(ra - ag) = 0` makes `C2 = 0` and the determinant vanish —
so `pm_gal_to_icrs` fails inside its matrix inversion there while
`pm_icrs_to_gal` happily returns a value produced by the non-invertible
map. -/
theorem claim_C10 :
    cosb cSing ≠ 0 ∧ (Rmat cSing).det = 0 ∧
    pm_gal_to_icrs cSing (⟨5, u0⟩, ⟨7, u0⟩) false = .error .singularMatrix ∧
    exceptOk (pm_icrs_to_gal cSing (⟨5, u0⟩, ⟨7, u0⟩) false) = true := by
  refine ⟨by rw [cosb_cSing]; exact sin_dg_pos.ne', Rmat_det_cSing, ?_, ?_⟩
  · simp [pm_gal_to_icrs, Quantity.to_self, Mat2.inv2, Rmat_det_cSing]
  · rw [pm_icrs_to_gal_eval cSing u0 5 7 false]
    rfl

theorem permute_axes_cyc_x (v : Vec3) : permute_axes (1, 0, 0) v = ⟨v.y, v.z, v.x⟩ := rfl

theorem permute_axes_cyc_y (v : Vec3) : permute_axes (0, 1, 0) v = ⟨v.z, v.x, v.y⟩ := rfl

theorem permute_axes_cyc_z (v : Vec3) : permute_axes (0, 0, 1) v = v := rfl

theorem cross_permute (circ : ℕ × ℕ × ℕ) (q p : Vec3) :
    cross (permute_axes circ q) (permute_axes circ p) = permute_axes circ (cross q p) := by
  by_cases h1 : circ = (1, 0, 0)
  · subst h1
    rfl
  · by_cases h2 : circ = (0, 1, 0)
    · subst h2
      rfl
    · have e : ∀ v : Vec3, permute_axes circ v = v := by
        intro v
        simp only [permute_axes]
        rw [if_neg h1, if_neg h2]
      rw [e, e, e]

theorem angular_momentum_align (w : List (Vec3 × Vec3)) (circ : ℕ × ℕ × ℕ) :
    angular_momentum (align_circulation_with_z w circ) =
      (angular_momentum w).map (permute_axes circ) := by
  simp only [angular_momentum, align_circulation_with_z, List.map_map]
  congr 1
  funext s
  exact cross_permute circ s.1 s.2

theorem permute_axes_id (v : Vec3) : permute_axes (0, 0, 0) v = v := rfl

theorem align_id (w : List (Vec3 × Vec3)) :
    align_circulation_with_z w (0, 0, 0) = w := by
  have h : align_circulation_with_z w (0, 0, 0) = List.map id w := rfl
  rw [h, List.map_id]

theorem align_cyc_z_id (w : List (Vec3 × Vec3)) :
    align_circulation_with_z w (0, 0, 1) = w := by
  have h : align_circulation_with_z w (0, 0, 1) = List.map id w := rfl
  rw [h, List.map_id]

theorem reclassify_align (w : List (Vec3 × Vec3)) :
    classify_orbit (align_circulation_with_z w (classify_orbit w)) =
      if classify_orbit w = (0, 0, 0) then (0, 0, 0) else (0, 0, 1) := by
  have ex1 : Vec3.x ∘ permute_axes (1, 0, 0) = Vec3.y := funext fun v => rfl
  have ey1 : Vec3.y ∘ permute_axes (1, 0, 0) = Vec3.z := funext fun v => rfl
  have ez1 : Vec3.z ∘ permute_axes (1, 0, 0) = Vec3.x := funext fun v => rfl
  have ex2 : Vec3.x ∘ permute_axes (0, 1, 0) = Vec3.z := funext fun v => rfl
  have ey2 : Vec3.y ∘ permute_axes (0, 1, 0) = Vec3.x := funext fun v => rfl
  have ez2 : Vec3.z ∘ permute_axes (0, 1, 0) = Vec3.y := funext fun v => rfl
  cases hx : single_sign ((angular_momentum w).map Vec3.x) <;>
    cases hy : single_sign ((angular_momentum w).map Vec3.y) <;>
      cases hz : single_sign ((angular_momentum w).map Vec3.z) <;>
        first
          | -- branches in which classification is (0,0,0): alignment is the identity
            (have hcw : classify_orbit w = (0, 0, 0) := by
               simp [classify_orbit, hx, hy, hz]
             rw [hcw, align_id, if_pos rfl]
             exact hcw)
          | -- x-loop branch
            (have hcw : classify_orbit w = (1, 0, 0) := by
               simp [classify_orbit, hx, hy, hz]
             rw [hcw, if_neg (by decide)]
             simp only [classify_orbit, angular_momentum_align, List.map_map, ex1, ey1, ez1,
               hx, hy, hz]
             rfl)
          | -- y-loop branch
            (have hcw : classify_orbit w = (0, 1, 0) := by
               simp [classify_orbit, hx, hy, hz]
             rw [hcw, if_neg (by decide)]
             simp only [classify_orbit, angular_momentum_align, List.map_map, ex2, ey2, ez2,
               hx, hy, hz]
             rfl)
          | -- z-loop branch: alignment leaves the axes alone
            (have hcw : classify_orbit w = (0, 0, 1) := by
               simp [classify_orbit, hx, hy, hz]
             rw [hcw, if_neg (by decide), align_cyc_z_id]
             exact hcw)

/-- Claim C4: `classify_orbit` (modelled from the spec, its implementation
not being part of the excerpt) returns a 3-element flag vector whose sum is
0 or 1 for every trajectory, flags an axis exactly when that axis alone
shows persistent single-sign circulation, and never flags more than one
axis. -/
theorem claim_C4 (w : List (Vec3 × Vec3)) :
    (flagSum (classify_orbit w) = 0 ∨ flagSum (classify_orbit w) = 1) ∧
    (classify_orbit w = (1, 0, 0) ↔
      (single_sign ((angular_momentum w).map Vec3.x) = true ∧
       single_sign ((angular_momentum w).map Vec3.y) = false ∧
       single_sign ((angular_momentum w).map Vec3.z) = false)) ∧
    (classify_orbit w = (0, 1, 0) ↔
      (single_sign ((angular_momentum w).map Vec3.y) = true ∧
       single_sign ((angular_momentum w).map Vec3.x) = false ∧
       single_sign ((angular_momentum w).map Vec3.z) = false)) ∧
    (classify_orbit w = (0, 0, 1) ↔
      (single_sign ((angular_momentum w).map Vec3.z) = true ∧
       single_sign ((angular_momentum w).map Vec3.x) = false ∧
       single_sign ((angular_momentum w).map Vec3.y) = false)) := by
  cases hx : single_sign ((angular_momentum w).map Vec3.x) <;>
    cases hy : single_sign ((angular_momentum w).map Vec3.y) <;>
      cases hz : single_sign ((angular_momentum w).map Vec3.z) <;>
        simp [classify_orbit, hx, hy, hz, flagSum] <;> decide

/-- Claim C5: re-running `classify_orbit` on the output of
`align_circulation_with_z` (both modelled from the spec, their
implementations not being part of the excerpt) yields the circulation flag
on axis index 2 for every loop orbit; for a box orbit (all-zero
classification) the trajectory is returned unchanged and its
re-classification is still all-zero; over a batch, each orbit instance is
permuted independently by its own classification. -/
theorem claim_C5 (w : List (Vec3 × Vec3)) :
    (classify_orbit (align_circulation_with_z w (classify_orbit w)) =
      if classify_orbit w = (0, 0, 0) then (0, 0, 0) else (0, 0, 1)) ∧
    (classify_orbit w = (0, 0, 0) → align_circulation_with_z w (classify_orbit w) = w) ∧
    (∀ ws : List (List (Vec3 × Vec3)),
      (align_circulation_with_z_batch ws (classify_orbit_batch ws)).map classify_orbit =
        ws.map fun o => if classify_orbit o = (0, 0, 0) then (0, 0, 0) else (0, 0, 1)) := by
  refine ⟨reclassify_align w, fun h => by rw [h, align_id], fun ws => ?_⟩
  induction ws with
  | nil => rfl
  | cons o t ih =>
    simp only [align_circulation_with_z_batch, classify_orbit_batch, List.map_cons,
      List.zipWith_cons_cons, List.cons.injEq]
    exact ⟨reclassify_align o, ih⟩

theorem single_sign_zero_single : single_sign [(0 : ℝ)] = false := by
  have h1 : ¬ (0 : ℝ) < 0 := lt_irrefl 0
  simp [single_sign, decide_eq_false h1]

theorem single_sign_one_single : single_sign [(1 : ℝ)] = true := by
  simp [single_sign, decide_eq_true (zero_lt_one (α := ℝ))]

theorem cross_loop_z : cross ⟨1, 0, 0⟩ ⟨0, 1, 0⟩ = ⟨0, 0, 1⟩ := by
  simp [cross]

theorem cross_box : cross ⟨1, 0, 0⟩ ⟨2, 0, 0⟩ = ⟨0, 0, 0⟩ := by
  simp [cross]

theorem classify_loop_z :
    classify_orbit [((⟨1, 0, 0⟩ : Vec3), (⟨0, 1, 0⟩ : Vec3))] = (0, 0, 1) := by
  have hm : angular_momentum [((⟨1, 0, 0⟩ : Vec3), (⟨0, 1, 0⟩ : Vec3))] = [⟨0, 0, 1⟩] := by
    simp [angular_momentum, cross_loop_z]
  simp [classify_orbit, hm, single_sign_zero_single, single_sign_one_single]

theorem classify_box :
    classify_orbit [((⟨1, 0, 0⟩ : Vec3), (⟨2, 0, 0⟩ : Vec3))] = (0, 0, 0) := by
  have hm : angular_momentum [((⟨1, 0, 0⟩ : Vec3), (⟨2, 0, 0⟩ : Vec3))] = [⟨0, 0, 0⟩] := by
    simp [angular_momentum, cross_box]
  simp [classify_orbit, hm, single_sign_zero_single]

/-- Witness for claim C5 on concrete loop and box trajectories. -/
theorem claim_C5_witness :
    classify_orbit [((⟨1, 0, 0⟩ : Vec3), (⟨0, 1, 0⟩ : Vec3))] = (0, 0, 1) ∧
    classify_orbit (align_circulation_with_z [((⟨1, 0, 0⟩ : Vec3), (⟨0, 1, 0⟩ : Vec3))]
      (classify_orbit [((⟨1, 0, 0⟩ : Vec3), (⟨0, 1, 0⟩ : Vec3))])) = (0, 0, 1) ∧
    classify_orbit [((⟨1, 0, 0⟩ : Vec3), (⟨2, 0, 0⟩ : Vec3))] = (0, 0, 0) ∧
    align_circulation_with_z [((⟨1, 0, 0⟩ : Vec3), (⟨2, 0, 0⟩ : Vec3))]
      (classify_orbit [((⟨1, 0, 0⟩ : Vec3), (⟨2, 0, 0⟩ : Vec3))]) =
      [((⟨1, 0, 0⟩ : Vec3), (⟨2, 0, 0⟩ : Vec3))] := by
  refine ⟨classify_loop_z, ?_, classify_box,
    (claim_C5 [((⟨1, 0, 0⟩ : Vec3), (⟨2, 0, 0⟩ : Vec3))]).2.1 classify_box⟩
  have h := (claim_C5 [((⟨1, 0, 0⟩ : Vec3), (⟨0, 1, 0⟩ : Vec3))]).1
  rw [classify_loop_z, if_neg (by decide)] at h
  rw [classify_loop_z]
  exact h

/-- Claim C7: `angular_momentum` (modelled from the spec, its implementation
not being part of the excerpt) is the elementwise cross product of position
and velocity at each time sample, preserves the time-axis length and, over
a batch, both the batch length and each instance's time-axis length; and it
sends position (1,0,0) with velocity (0,0,1) to (0,-1,0), position (1,0,0)
with velocity (0,1,0) to (0,0,1), and position (0,1,0) with velocity
(0,0,1) to (1,0,0). -/
theorem claim_C7 :
    angular_momentum [((⟨1, 0, 0⟩ : Vec3), (⟨0, 0, 1⟩ : Vec3))] = [⟨0, -1, 0⟩] ∧
    angular_momentum [((⟨1, 0, 0⟩ : Vec3), (⟨0, 1, 0⟩ : Vec3))] = [⟨0, 0, 1⟩] ∧
    angular_momentum [((⟨0, 1, 0⟩ : Vec3), (⟨0, 0, 1⟩ : Vec3))] = [⟨1, 0, 0⟩] ∧
    (∀ w : List (Vec3 × Vec3), angular_momentum w = w.map fun s => cross s.1 s.2) ∧
    (∀ w : List (Vec3 × Vec3), (angular_momentum w).length = w.length) ∧
    (∀ ws : List (List (Vec3 × Vec3)),
      (angular_momentum_batch ws).length = ws.length ∧
      (angular_momentum_batch ws).map List.length = ws.map List.length) := by
  refine ⟨by simp [angular_momentum, cross], by simp [angular_momentum, cross],
    by simp [angular_momentum, cross], fun w => rfl,
    fun w => by simp [angular_momentum], fun ws => ⟨by simp [angular_momentum_batch], ?_⟩⟩
  simp [angular_momentum_batch, angular_momentum, List.map_map, Function.comp]

end Gary

end
